import Mathlib

/-!
Verification of the job-orchestration core of the genealpha-backend-training
repository, as a shallow embedding in Lean 4.

The embedding follows the Python source:
- src/storage/job_store.py        : JobStatus, Job, JobStore
- src/app/api/routes/job.py       : cancel_job route
- src/app/services/training_service.py : TrainingService.start_job / _run_job
- src/app/core/hf_utils.py        : push_model retry loop

Python objects are mutable and shared by reference, and the store hands out
references to its canonical Job objects, so the embedding uses an explicit
heap: a system state holds a heap of (address, Job) cells together with the
store's dictionary mapping job ids to addresses.  Job attributes hold
dynamically typed values (PyVal), since JobStore.update assigns arbitrary
values to arbitrary attribute names via setattr.  Wall-clock timestamps
(datetime.utcnow) are modelled by an explicit Nat clock parameter, and the
worker's filesystem effects by a list of existing paths.
-/

namespace GA

/-- Enumeration from src/storage/job_store.py, class JobStatus. -/
inductive JobStatus where
  | pending
  | running
  | completed
  | failed
  | cancelled
deriving DecidableEq, Repr

/-- One entry of Job.logs: a timestamp (abstract clock value standing for the
isoformat string) and a message, as appended by Job.add_log. -/
structure LogEntry where
  ts : Nat
  message : String
deriving DecidableEq, Repr

/-- Dynamically typed attribute values, covering every value the Python code
stores in a Job attribute: None, strings, ints, bools, the status enum, the
logs list, the metrics dict (metric name to numeric value) and the opaque
config dict. -/
inductive PyVal where
  | vNone
  | vStr (s : String)
  | vInt (n : Int)
  | vBool (b : Bool)
  | vStatus (st : JobStatus)
  | vLogs (l : List LogEntry)
  | vNumMap (m : List (String × Int))
  | vStrMap (m : List (String × String))
deriving DecidableEq, Repr

/-- Association-list lookup (first binding wins, like a Python dict read). -/
def alLookup {β : Type} (l : List (String × β)) (k : String) : Option β :=
  match l with
  | [] => none
  | p :: ps => if p.1 = k then some p.2 else alLookup ps k

/-- Association-list write with Python-dict semantics: replace the binding in
place when the key is present, otherwise append at the end (insertion order
is preserved, as in a Python dict). -/
def alInsert {β : Type} (l : List (String × β)) (k : String) (v : β) : List (String × β) :=
  match l with
  | [] => [(k, v)]
  | p :: ps => if p.1 = k then (k, v) :: ps else p :: alInsert ps k v

/-- The Job record of src/storage/job_store.py.  Every attribute set by
Job.__init__ is a field holding a PyVal (Python attributes are untyped);
`extra` holds attributes created later by setattr under names that
Job.__init__ never set (JobStore.update performs exactly such setattr calls). -/
structure Job where
  job_id : PyVal
  user_id : PyVal
  model_type : PyVal
  dataset : PyVal
  config : PyVal
  status : PyVal
  created_at : PyVal
  started_at : PyVal
  completed_at : PyVal
  error : PyVal
  metrics : PyVal
  wandb_run_id : PyVal
  wandb_run_url : PyVal
  model_path : PyVal
  huggingface_model_id : PyVal
  progress : PyVal
  logs : PyVal
  extra : List (String × PyVal)
deriving DecidableEq, Repr

/-- Job.__init__: the initial attribute values.  The job id is passed in
(the caller either supplies precreated_job_id or a fresh uuid4 string); the
clock value `now` stands for datetime.utcnow(). -/
def Job.init (job_id : String) (model_type : String) (dataset : String)
    (config : List (String × String)) (user_id : Option String) (now : Nat) : Job where
  job_id := .vStr job_id
  user_id := match user_id with | none => .vNone | some u => .vStr u
  model_type := .vStr model_type
  dataset := .vStr dataset
  config := .vStrMap config
  status := .vStatus .pending
  created_at := .vInt (Int.ofNat now)
  started_at := .vNone
  completed_at := .vNone
  error := .vNone
  metrics := .vNumMap []
  wandb_run_id := .vNone
  wandb_run_url := .vNone
  model_path := .vNone
  huggingface_model_id := .vNone
  progress := .vInt 0
  logs := .vLogs []
  extra := []

/-- Append a log entry to a logs value (list.append inside Job.add_log).
On a non-list value the Python code would raise; no reachable state hits
that case, and the model leaves the value unchanged there. -/
def pyAppendLog (v : PyVal) (e : LogEntry) : PyVal :=
  match v with
  | .vLogs l => .vLogs (l ++ [e])
  | other => other

/-- Job.add_log: appends a timestamped entry to self.logs. -/
def Job.addLog (j : Job) (now : Nat) (msg : String) : Job :=
  { j with logs := pyAppendLog j.logs ⟨now, msg⟩ }

/-- Job.complete: unconditionally sets status to COMPLETED, stamps
completed_at, stores the metrics dict and huggingface id, sets progress to
100 and appends a log line.  Note there is no check of the current status. -/
def Job.completeJob (j : Job) (metrics : List (String × Int))
    (hf : Option String) (now : Nat) : Job :=
  let j := { j with
    status := .vStatus .completed
    completed_at := .vInt (Int.ofNat now)
    metrics := .vNumMap metrics
    huggingface_model_id := match hf with | none => .vNone | some u => .vStr u
    progress := .vInt 100 }
  j.addLog now "Job completed"

/-- Job.fail: unconditionally sets status to FAILED, stamps completed_at,
records the error text and appends a log line.  No check of current status. -/
def Job.failJob (j : Job) (error : String) (now : Nat) : Job :=
  let j := { j with
    status := .vStatus .failed
    completed_at := .vInt (Int.ofNat now)
    error := .vStr error }
  j.addLog now ("Job failed: " ++ error)

/-- Python setattr on a Job: a known attribute name updates that field, any
other name creates (or overwrites) an entry in `extra`.  There is no
validation of either the name or the value, mirroring JobStore.update. -/
def Job.setattr (j : Job) (n : String) (v : PyVal) : Job :=
  if n = "job_id" then { j with job_id := v }
  else if n = "user_id" then { j with user_id := v }
  else if n = "model_type" then { j with model_type := v }
  else if n = "dataset" then { j with dataset := v }
  else if n = "config" then { j with config := v }
  else if n = "status" then { j with status := v }
  else if n = "created_at" then { j with created_at := v }
  else if n = "started_at" then { j with started_at := v }
  else if n = "completed_at" then { j with completed_at := v }
  else if n = "error" then { j with error := v }
  else if n = "metrics" then { j with metrics := v }
  else if n = "wandb_run_id" then { j with wandb_run_id := v }
  else if n = "wandb_run_url" then { j with wandb_run_url := v }
  else if n = "model_path" then { j with model_path := v }
  else if n = "huggingface_model_id" then { j with huggingface_model_id := v }
  else if n = "progress" then { j with progress := v }
  else if n = "logs" then { j with logs := v }
  else { j with extra := alInsert j.extra n v }

/-- Python getattr on a Job: known attribute names read the field, other
names read the dynamically created attributes. -/
def Job.getattr (j : Job) (n : String) : Option PyVal :=
  if n = "job_id" then some j.job_id
  else if n = "user_id" then some j.user_id
  else if n = "model_type" then some j.model_type
  else if n = "dataset" then some j.dataset
  else if n = "config" then some j.config
  else if n = "status" then some j.status
  else if n = "created_at" then some j.created_at
  else if n = "started_at" then some j.started_at
  else if n = "completed_at" then some j.completed_at
  else if n = "error" then some j.error
  else if n = "metrics" then some j.metrics
  else if n = "wandb_run_id" then some j.wandb_run_id
  else if n = "wandb_run_url" then some j.wandb_run_url
  else if n = "model_path" then some j.model_path
  else if n = "huggingface_model_id" then some j.huggingface_model_id
  else if n = "progress" then some j.progress
  else if n = "logs" then some j.logs
  else alLookup j.extra n

/-- Heap addresses: Python object identities. -/
abbrev Addr := Nat

/-- The shared mutable state: a heap of Job objects plus the JobStore's
`_jobs` dictionary mapping job ids to object references (addresses).
`next` is the next fresh address. -/
structure Sys where
  heap : List (Addr × Job)
  next : Addr
  jobs : List (String × Addr)
deriving DecidableEq, Repr

/-- The state at process start: an empty JobStore and an empty heap. -/
def emptySys : Sys := { heap := [], next := 0, jobs := [] }

/-- Dereference an object: first heap cell with this address. -/
def heapGet (s : Sys) (a : Addr) : Option Job :=
  match s.heap.find? (fun p => p.1 = a) with
  | some p => some p.2
  | none => none

/-- Overwrite the object at an address (mutation of a shared Python object:
every occurrence of the address now sees the new value). -/
def heapSet (s : Sys) (a : Addr) (j : Job) : Sys :=
  { s with heap := s.heap.map (fun p => if p.1 = a then (a, j) else p) }

/-- JobStore.add: constructs a Job with the precreated id and registers it in
the `_jobs` dict (used by TrainingService.start_job).  The `extra` argument of
the Python method carries the config. -/
def Sys.add (s : Sys) (job_id : String) (model_type : String) (dataset : String)
    (user_id : Option String) (config : List (String × String)) (now : Nat) : Sys :=
  let j := Job.init job_id model_type dataset config user_id now
  { heap := s.heap ++ [(s.next, j)]
    next := s.next + 1
    jobs := alInsert s.jobs job_id s.next }

/-- JobStore.get_job: returns the stored Job object itself, i.e. a reference
(heap address), not a copy.  None when the id is unknown. -/
def Sys.getJob (s : Sys) (job_id : String) : Option Addr :=
  alLookup s.jobs job_id

/-- The canonical record the store holds for a job id (the value currently
reachable through the store's own reference). -/
def Sys.jobRecord (s : Sys) (job_id : String) : Option Job :=
  match s.getJob job_id with
  | some a => heapGet s a
  | none => none

/-- Convenience projections of the canonical record. -/
def Sys.statusOf (s : Sys) (job_id : String) : Option PyVal :=
  (s.jobRecord job_id).map Job.status

def Sys.errorOf (s : Sys) (job_id : String) : Option PyVal :=
  (s.jobRecord job_id).map Job.error

def Sys.metricsOf (s : Sys) (job_id : String) : Option PyVal :=
  (s.jobRecord job_id).map Job.metrics

def Sys.progressOf (s : Sys) (job_id : String) : Option PyVal :=
  (s.jobRecord job_id).map Job.progress

/-- JobStore.update: looks the job up in `_jobs` (KeyError, i.e. none, when
absent) and setattrs every supplied name on the stored object, in order,
with no validation of names or values. -/
def Sys.update (s : Sys) (job_id : String) (fields : List (String × PyVal)) : Option Sys :=
  match s.getJob job_id with
  | none => none
  | some a =>
    match heapGet s a with
    | none => none
    | some j => some (heapSet s a (fields.foldl (fun jb kv => jb.setattr kv.1 kv.2) j))

/-- JobStore.complete: Job.complete on the stored object (KeyError when the
id is unknown). -/
def Sys.complete (s : Sys) (job_id : String) (metrics : List (String × Int))
    (hf : Option String) (now : Nat) : Option Sys :=
  match s.getJob job_id with
  | none => none
  | some a =>
    match heapGet s a with
    | none => none
    | some j => some (heapSet s a (j.completeJob metrics hf now))

/-- JobStore.fail: Job.fail on the stored object (KeyError when unknown). -/
def Sys.fail (s : Sys) (job_id : String) (error : String) (now : Nat) : Option Sys :=
  match s.getJob job_id with
  | none => none
  | some a =>
    match heapGet s a with
    | none => none
    | some j => some (heapSet s a (j.failJob error now))

/-- Sort key used by JobStore.list_jobs: the job's created_at value. -/
def createdKey (j : Job) : Int :=
  match j.created_at with
  | .vInt n => n
  | _ => 0

/-- Insertion step of a descending sort by created_at. -/
def insertDesc (p : Addr × Job) : List (Addr × Job) → List (Addr × Job)
  | [] => [p]
  | q :: qs => if createdKey q.2 ≤ createdKey p.2 then p :: q :: qs else q :: insertDesc p qs

/-- Descending sort by created_at (sorted with reverse=True in the source). -/
def sortDesc : List (Addr × Job) → List (Addr × Job)
  | [] => []
  | p :: ps => insertDesc p (sortDesc ps)

/-- JobStore.list_jobs: the stored Job objects (references), optionally
filtered by status and by user id, sorted by created_at descending. -/
def Sys.listJobs (s : Sys) (status : Option JobStatus) (user : Option String) : List Addr :=
  let pairs := s.jobs.filterMap (fun kv => (heapGet s kv.2).map (fun j => (kv.2, j)))
  let pairs := match status with
    | none => pairs
    | some st => pairs.filter (fun p => decide (p.2.status = PyVal.vStatus st))
  let pairs := match user with
    | none => pairs
    | some u => pairs.filter (fun p => decide (p.2.user_id = PyVal.vStr u))
  (sortDesc pairs).map (fun p => p.1)

/-- The Job objects currently registered in the store, in dict order. -/
def Sys.storeJobs (s : Sys) : List Job :=
  s.jobs.filterMap (fun kv => heapGet s kv.2)

/-- JobStore.get_stats: the dict literal built by the source, as an ordered
association list.  Each count is the length of a filtered list of the stored
jobs; note the source builds keys total, pending, running, completed and
failed only. -/
def Sys.getStats (s : Sys) : List (String × Nat) :=
  [ ("total", s.jobs.length)
  , ("pending", (s.storeJobs.filter (fun j => decide (j.status = PyVal.vStatus .pending))).length)
  , ("running", (s.storeJobs.filter (fun j => decide (j.status = PyVal.vStatus .running))).length)
  , ("completed", (s.storeJobs.filter (fun j => decide (j.status = PyVal.vStatus .completed))).length)
  , ("failed", (s.storeJobs.filter (fun j => decide (j.status = PyVal.vStatus .failed))).length) ]

/-- Outcome of the DELETE /jobs/job_id route (src/app/api/routes/job.py,
cancel_job).  `attrError` is the AttributeError raised by the call
job_store.update_job(job): JobStore defines no method named update_job, so
after the direct status mutation the handler crashes (HTTP 500) instead of
returning its success message. -/
inductive CancelResult where
  | okMsg
  | notFound
  | invalidState
  | attrError
deriving DecidableEq, Repr

/-- The cancel_job route: get_job; 404 when unknown; 400 when the status is
not PENDING or RUNNING (record untouched); otherwise it assigns
job.status = CANCELLED directly on the shared object returned by get_job
(which does mutate the store's canonical record, since get_job returns a
reference) and then calls the nonexistent job_store.update_job, raising
AttributeError.  The unreachable success message is kept as `okMsg` for
completeness. -/
def cancelRoute (s : Sys) (job_id : String) : Sys × CancelResult :=
  match s.getJob job_id with
  | none => (s, .notFound)
  | some a =>
    match heapGet s a with
    | none => (s, .notFound)
    | some j =>
      if j.status = PyVal.vStatus .pending ∨ j.status = PyVal.vStatus .running then
        (heapSet s a { j with status := PyVal.vStatus .cancelled }, .attrError)
      else
        (s, .invalidState)

/-- Admission errors of TrainingService.start_job: ensure_dataset_exists
raises ValueError when the dataset probe fails, and ModelRegistry.get_model
raises ValueError when the model type is not registered. -/
inductive StartErr where
  | datasetUnavailable (msg : String)
  | unknownModelType (msg : String)
deriving DecidableEq, Repr

/-- TrainingService.start_job: first the dataset existence probe
(ensure_dataset_exists), then the registry lookup (ModelRegistry.get_model),
and only then the uuid4 id is minted and JobStore.add registers the record;
EXECUTOR.submit of the run is not part of the admission path.  The external
dataset probe is a Boolean oracle, the registry is its list of registered
type ids, and `fresh` is the uuid4 string.  Both failure branches return the
store unchanged. -/
def start_job (s : Sys) (datasetOk : String → Bool) (registered : List String)
    (user_id : Option String) (model_type : String) (dataset : String)
    (config : List (String × String)) (fresh : String) (now : Nat) :
    Sys × Except StartErr String :=
  if ¬ datasetOk dataset then
    (s, .error (.datasetUnavailable ("Dataset " ++ dataset ++ " not found or inaccessible.")))
  else if ¬ registered.contains model_type then
    (s, .error (.unknownModelType ("Model " ++ model_type ++ " not registered.")))
  else
    (s.add fresh model_type dataset user_id config now, .ok fresh)

/-- Result of push_model (src/app/core/hf_utils.py): how many upload attempts
were made, the sleeps performed (time.sleep(2 ** attempt) after each failed
attempt) and the outcome: the repo url on success, the RuntimeError text
after the loop is exhausted. -/
structure PushResult where
  attempts : Nat
  sleeps : List Nat
  outcome : Except String String
deriving Repr

/-- The retry loop over the attempt numbers of range(1, 4): a successful
attempt returns the url at once; a failed attempt sleeps 2 ^ attempt and
continues; an exhausted loop falls through to the RuntimeError.  `ok k`
tells whether the k-th attempt's create_repo + upload_folder pair
succeeds. -/
def pushLoop (ok : Nat → Bool) (url : String) : List Nat → PushResult
  | [] => ⟨0, [], .error "Failed to push model to Hugging Face after 3 retries."⟩
  | attempt :: rest =>
    if ok attempt then ⟨1, [], .ok url⟩
    else
      let r := pushLoop ok url rest
      ⟨r.attempts + 1, 2 ^ attempt :: r.sleeps, r.outcome⟩

/-- push_model: at most the three attempts of range(1, 4), then the generic
RuntimeError. -/
def push_model (ok : Nat → Bool) (repo_id : String) : PushResult :=
  pushLoop ok ("https://huggingface.co/" ++ repo_id) [1, 2, 3]

/-- A filesystem path as its list of components, and the filesystem as the
list of currently existing paths. -/
abbrev FsPath := List String

/-- The per-job scratch directory created at the top of
TrainingService._run_job: Path("storage") / "artifacts" / job_id. -/
def artefactDir (job_id : String) : FsPath :=
  ["storage", "artifacts", job_id]

/-- shutil.rmtree of a directory on the path-list filesystem model: removes
the directory and every path below it (every path of which the directory's
components are a leading segment). -/
def rmtree (dir : FsPath) (fs : List FsPath) : List FsPath :=
  fs.filter (fun p => ¬ dir.isPrefixOf p)

/-- Effects of one execution of TrainingService._run_job. -/
structure RunResult where
  sys : Sys
  fs : List FsPath
  savedPath : Option FsPath
deriving Repr

/-- TrainingService._run_job, abstracted over the outcome of its try block.
The body (data preparation, strategy construction, training, local save and
the optional publication) either raises with message e at some step, or
returns the strategy's metrics together with the optional repo url from
push_model.  The function mirrors the source's control flow: mkdir of the
scratch directory first; on the success path model.save writes
artefact_dir/model.joblib and JobStore.complete finalizes; on any exception
the handler calls JobStore.fail with str(e); the finally block removes the
whole scratch directory on both paths.  A raising store call (unknown id)
leaves the store unmodified. -/
def runJob (s : Sys) (fs : List FsPath) (job_id : String)
    (body : Except String (List (String × Int) × Option String)) (now : Nat) : RunResult :=
  let dir := artefactDir job_id
  let fs1 := dir :: fs
  match body with
  | .ok (metrics, repo) =>
    let path := dir ++ ["model.joblib"]
    let fs2 := path :: fs1
    let s1 := (s.complete job_id metrics repo now).getD s
    ⟨s1, rmtree dir fs2, some path⟩
  | .error e =>
    let s1 := (s.fail job_id e now).getD s
    ⟨s1, rmtree dir fs1, none⟩

/-- The store mutations the application performs on a job, one constructor
per call site: JobStore.add from start_job; the three JobStore.update calls
issued inside _run_job (the logs replacement of log_step, the wandb url
write, and the progress writes of the strategy's progress callback); the
final JobStore.complete or JobStore.fail of the worker; and the cancel
route. -/
inductive Event where
  | add (job_id : String) (model_type : String) (dataset : String)
      (user_id : Option String) (config : List (String × String))
  | logsSet (job_id : String) (l : List LogEntry)
  | wandbUrl (job_id : String) (url : String)
  | progressSet (job_id : String) (p : Int)
  | finishOk (job_id : String) (metrics : List (String × Int)) (repo : Option String)
  | finishErr (job_id : String) (msg : String)
  | cancel (job_id : String)
deriving DecidableEq, Repr

/-- Apply one event at clock value `now`.  Store calls that would raise
KeyError leave the state unchanged (the raising thread crashes without
mutating anything). -/
def step (now : Nat) (s : Sys) : Event → Sys
  | .add id mt ds uid cfg => s.add id mt ds uid cfg now
  | .logsSet id l => (s.update id [("logs", .vLogs l)]).getD s
  | .wandbUrl id url => (s.update id [("wandb_run_url", .vStr url)]).getD s
  | .progressSet id p => (s.update id [("progress", .vInt p)]).getD s
  | .finishOk id m r => (s.complete id m r now).getD s
  | .finishErr id e => (s.fail id e now).getD s
  | .cancel id => (cancelRoute s id).1

/-- Run a timed event trace from a state. -/
def runTrace (s : Sys) : List (Nat × Event) → Sys
  | [] => s
  | (t, e) :: rest => runTrace (step t s e) rest

/-- Whether the store's record for a job id is already finalized
(Completed or Failed). -/
def finishedB (s : Sys) (job_id : String) : Bool :=
  match s.jobRecord job_id with
  | some j => decide (j.status = PyVal.vStatus .completed)
      || decide (j.status = PyVal.vStatus .failed)
  | none => false

/-- Whether an event can occur in a state in an actual run of the system.
One worker runs each job exactly once (ids are fresh uuid4 strings and
EXECUTOR.submit is called once per id), all of its store writes precede its
single final complete-or-fail call, and nothing writes to a job after that
call.  Admission (add) and the cancel route can occur at any time. -/
def allowedB (s : Sys) : Event → Bool
  | .add _ _ _ _ _ => true
  | .logsSet id _ => ¬ finishedB s id
  | .wandbUrl id _ => ¬ finishedB s id
  | .progressSet id _ => ¬ finishedB s id
  | .finishOk id _ _ => ¬ finishedB s id
  | .finishErr id _ => ¬ finishedB s id
  | .cancel _ => true

/-- A trace every step of which is allowed in the state it fires from. -/
def okTrace (s : Sys) : List (Nat × Event) → Bool
  | [] => true
  | (t, e) :: rest => allowedB s e && okTrace (step t s e) rest

/-- The lifecycle facts a single Job object maintains under the system's
own mutations: a non-None error occurs only on a Failed job and is a string;
non-empty metrics occur only on a Completed job; Failed jobs carry an error;
Completed jobs carry progress 100. -/
def JobInv (j : Job) : Prop :=
  (j.error ≠ PyVal.vNone → j.status = PyVal.vStatus .failed ∧ ∃ e, j.error = PyVal.vStr e)
  ∧ (j.metrics ≠ PyVal.vNumMap [] → j.status = PyVal.vStatus .completed)
  ∧ (j.status = PyVal.vStatus .failed → j.error ≠ PyVal.vNone)
  ∧ (j.status = PyVal.vStatus .completed → j.progress = PyVal.vInt 100)

/-- JobInv for every Job object on the heap. -/
def StoreInv (s : Sys) : Prop :=
  ∀ p ∈ s.heap, JobInv p.2

/-! Concrete sample states used by counterexamples and witnesses. -/

/-- A store holding one freshly admitted (Pending) job j1. -/
def pendingSample : Sys :=
  Sys.add emptySys "j1" "linear_regression" "user/demo" none [] 0

/-- A store whose job j1 was admitted and then cancelled through the route. -/
def cancelledSample : Sys :=
  runTrace emptySys
    [ (0, .add "j1" "linear_regression" "user/demo" none [])
    , (1, .cancel "j1") ]

/-- A store whose job j1 was admitted and then finalized by its worker. -/
def completedSample : Sys :=
  runTrace emptySys
    [ (0, .add "j1" "linear_regression" "user/demo" none [])
    , (1, .finishOk "j1" [("mse", 2)] none) ]

/-- A trace producing three terminal jobs: j1 cancelled untouched, j2
cancelled after its progress callback pushed 100, and j3 completed with an
empty metrics dict. -/
def c2Trace : List (Nat × Event) :=
  [ (0, .add "j1" "linear_regression" "user/demo" none [])
  , (1, .cancel "j1")
  , (2, .add "j2" "lightgbm" "user/demo" none [])
  , (3, .progressSet "j2" 100)
  , (4, .cancel "j2")
  , (5, .add "j3" "random_forest" "user/demo" none [])
  , (6, .finishOk "j3" [] none) ]

def c2Sample : Sys := runTrace emptySys c2Trace

/-- pendingSample after mutating, through the reference returned by get_job
(address 0), the progress attribute of the shared Job object. -/
def c4Mutated : Sys :=
  heapSet pendingSample 0
    ((Job.init "j1" "linear_regression" "user/demo" [] none 0).setattr "progress" (PyVal.vInt 55))

/-- A successful worker run of job j1 against an empty filesystem. -/
def runSample : RunResult :=
  runJob (Sys.add emptySys "j1" "lightgbm" "user/demo" none [] 0) [] "j1"
    (.ok ([("mse", 1)], none)) 1

/-! Helper lemmas about the association lists, the heap and the store. -/

theorem mem_rmtree_not_under {dir : FsPath} {fs : List FsPath} {p : FsPath}
    (hmem : p ∈ rmtree dir fs) : ¬ dir <+: p := by
  have h := List.of_mem_filter hmem
  simpa using h

theorem self_not_mem_rmtree (dir : FsPath) (fs : List FsPath) : dir ∉ rmtree dir fs := by
  intro hmem
  exact mem_rmtree_not_under hmem (List.prefix_refl dir)

theorem extended_not_mem_rmtree (dir : FsPath) (t : FsPath) (fs : List FsPath) :
    (dir ++ t) ∉ rmtree dir fs := by
  intro hmem
  exact mem_rmtree_not_under hmem (List.prefix_append dir t)

theorem alLookup_alInsert_self {β : Type} (l : List (String × β)) (k : String) (v : β) :
    alLookup (alInsert l k v) k = some v := by
  induction l with
  | nil => simp [alInsert, alLookup]
  | cons p ps ih =>
    by_cases h : p.1 = k
    · simp [alInsert, alLookup, h]
    · simp [alInsert, alLookup, h, ih]

theorem heapGet_mem {s : Sys} {a : Addr} {j : Job} (h : heapGet s a = some j) :
    (a, j) ∈ s.heap := by
  unfold heapGet at h
  cases hf : s.heap.find? (fun p => p.1 = a) with
  | none => rw [hf] at h; simp at h
  | some p =>
    rw [hf] at h
    have hm := List.mem_of_find?_eq_some hf
    have hp : p.1 = a := by simpa using List.find?_some hf
    have hpj : p = (a, j) := by
      cases p
      simp only [Option.some.injEq] at h
      simp_all
    rw [← hpj]
    exact hm

theorem find?_heapSet_self (l : List (Addr × Job)) (a : Addr) (j : Job) :
    (l.map (fun p => if p.1 = a then (a, j) else p)).find? (fun p => decide (p.1 = a))
      = (l.find? (fun p => decide (p.1 = a))).map (fun _ => (a, j)) := by
  induction l with
  | nil => simp
  | cons q qs ih =>
    by_cases h : q.1 = a
    · simp [List.find?_cons, h]
    · simp [List.find?_cons, h, ih]

theorem find?_heapSet_other (l : List (Addr × Job)) {a b : Addr} (j : Job) (hne : b ≠ a) :
    (l.map (fun p => if p.1 = a then (a, j) else p)).find? (fun p => decide (p.1 = b))
      = l.find? (fun p => decide (p.1 = b)) := by
  induction l with
  | nil => simp
  | cons q qs ih =>
    by_cases h : q.1 = a
    · have hb : ¬ q.1 = b := by rw [h]; exact fun hc => hne hc.symm
      have hab : ¬ (a = b) := fun hc => hne hc.symm
      simp [List.find?_cons, h, hb, hab, ih]
    · by_cases hqb : q.1 = b
      · simp [List.find?_cons, h, hqb, hne]
      · simp [List.find?_cons, h, hqb, ih]

theorem heapGet_heapSet_self {s : Sys} {a : Addr} {j0 : Job} (j : Job)
    (h : heapGet s a = some j0) : heapGet (heapSet s a j) a = some j := by
  unfold heapGet heapSet
  simp only
  rw [find?_heapSet_self]
  unfold heapGet at h
  cases hf : s.heap.find? (fun p => decide (p.1 = a)) with
  | none => rw [hf] at h; simp at h
  | some p => simp

theorem heapGet_heapSet_other {s : Sys} {a b : Addr} (j : Job) (hne : b ≠ a) :
    heapGet (heapSet s a j) b = heapGet s b := by
  unfold heapGet heapSet
  simp only
  rw [find?_heapSet_other _ _ hne]

theorem getJob_heapSet (s : Sys) (a : Addr) (j : Job) (id : String) :
    (heapSet s a j).getJob id = s.getJob id := rfl

theorem storeInv_heapSet {s : Sys} {a : Addr} {j : Job}
    (hs : StoreInv s) (hj : JobInv j) : StoreInv (heapSet s a j) := by
  intro p hp
  unfold heapSet at hp
  simp only [List.mem_map] at hp
  obtain ⟨q, hq, rfl⟩ := hp
  by_cases h : q.1 = a
  · simpa [h] using hj
  · simpa [h] using hs q hq

theorem jobRecord_mem {s : Sys} {id : String} {j : Job}
    (h : s.jobRecord id = some j) : ∃ a, (a, j) ∈ s.heap := by
  unfold Sys.jobRecord at h
  cases hg : s.getJob id with
  | none => rw [hg] at h; simp at h
  | some a =>
    rw [hg] at h
    exact ⟨a, heapGet_mem h⟩

theorem record_after_complete {s : Sys} {id : String} {j : Job}
    (m : List (String × Int)) (r : Option String) (now : Nat)
    (h : s.jobRecord id = some j) :
    ((s.complete id m r now).getD s).jobRecord id = some (j.completeJob m r now) := by
  unfold Sys.jobRecord at h
  cases hg : s.getJob id with
  | none => rw [hg] at h; simp at h
  | some a =>
    rw [hg] at h
    have h2 : heapGet s a = some j := h
    have hc : s.complete id m r now = some (heapSet s a (j.completeJob m r now)) := by
      simp [Sys.complete, hg, h2]
    rw [hc]
    show (heapSet s a (j.completeJob m r now)).jobRecord id = _
    unfold Sys.jobRecord
    rw [getJob_heapSet, hg]
    exact heapGet_heapSet_self _ h

theorem record_after_fail {s : Sys} {id : String} {j : Job}
    (e : String) (now : Nat) (h : s.jobRecord id = some j) :
    ((s.fail id e now).getD s).jobRecord id = some (j.failJob e now) := by
  unfold Sys.jobRecord at h
  cases hg : s.getJob id with
  | none => rw [hg] at h; simp at h
  | some a =>
    rw [hg] at h
    have h2 : heapGet s a = some j := h
    have hc : s.fail id e now = some (heapSet s a (j.failJob e now)) := by
      simp [Sys.fail, hg, h2]
    rw [hc]
    show (heapSet s a (j.failJob e now)).jobRecord id = _
    unfold Sys.jobRecord
    rw [getJob_heapSet, hg]
    exact heapGet_heapSet_self _ h

theorem mem_insertDesc {x p : Addr × Job} {l : List (Addr × Job)} :
    x ∈ insertDesc p l ↔ x = p ∨ x ∈ l := by
  induction l with
  | nil => simp [insertDesc]
  | cons q qs ih =>
    unfold insertDesc
    by_cases h : createdKey q.2 ≤ createdKey p.2
    · simp [h]
    · simp only [h, if_false, List.mem_cons, ih]
      tauto

theorem mem_sortDesc {x : Addr × Job} {l : List (Addr × Job)} :
    x ∈ sortDesc l ↔ x ∈ l := by
  induction l with
  | nil => simp [sortDesc]
  | cons q qs ih =>
    unfold sortDesc
    rw [mem_insertDesc, ih]
    simp

/-! Preservation of the per-job lifecycle facts under the system's own
mutations. -/

theorem jobInv_init (job_id model_type dataset : String)
    (config : List (String × String)) (user_id : Option String) (now : Nat) :
    JobInv (Job.init job_id model_type dataset config user_id now) := by
  simp [JobInv, Job.init]

theorem not_finished_status {s : Sys} {id : String} {a : Addr} {j : Job}
    (hg : s.getJob id = some a) (hh : heapGet s a = some j)
    (hnf : finishedB s id = false) :
    ¬ j.status = PyVal.vStatus .completed ∧ ¬ j.status = PyVal.vStatus .failed := by
  have hr : s.jobRecord id = some j := by
    unfold Sys.jobRecord
    rw [hg]
    exact hh
  unfold finishedB at hnf
  rw [hr] at hnf
  simpa using hnf

theorem jobInv_completeJob {j : Job} (h : JobInv j)
    (hns : ¬ j.status = PyVal.vStatus .failed)
    (m : List (String × Int)) (r : Option String) (now : Nat) :
    JobInv (j.completeJob m r now) := by
  refine ⟨?_, ?_, ?_, ?_⟩
  · intro hne
    have hne2 : j.error ≠ PyVal.vNone := hne
    exact absurd (h.1 hne2).1 hns
  · intro _
    exact rfl
  · intro hst
    have hst2 : PyVal.vStatus JobStatus.completed = PyVal.vStatus JobStatus.failed := hst
    exact absurd hst2 (by simp)
  · intro _
    exact rfl

theorem jobInv_failJob {j : Job} (h : JobInv j)
    (hns : ¬ j.status = PyVal.vStatus .completed) (e : String) (now : Nat) :
    JobInv (j.failJob e now) := by
  refine ⟨?_, ?_, ?_, ?_⟩
  · intro _
    exact ⟨rfl, ⟨e, rfl⟩⟩
  · intro hne
    have hne2 : j.metrics ≠ PyVal.vNumMap [] := hne
    exact absurd (h.2.1 hne2) hns
  · intro _
    have hd : PyVal.vStr e ≠ PyVal.vNone := by simp
    exact hd
  · intro hst
    have hst2 : PyVal.vStatus JobStatus.failed = PyVal.vStatus JobStatus.completed := hst
    exact absurd hst2 (by simp)

theorem jobInv_cancelled {j : Job} (h : JobInv j)
    (hp : j.status = PyVal.vStatus .pending ∨ j.status = PyVal.vStatus .running) :
    JobInv { j with status := PyVal.vStatus .cancelled } := by
  have hnsf : ¬ j.status = PyVal.vStatus .failed := by
    rcases hp with hp | hp <;> simp [hp]
  have hnsc : ¬ j.status = PyVal.vStatus .completed := by
    rcases hp with hp | hp <;> simp [hp]
  refine ⟨?_, ?_, ?_, ?_⟩
  · intro hne
    have hne2 : j.error ≠ PyVal.vNone := hne
    exact absurd (h.1 hne2).1 hnsf
  · intro hne
    have hne2 : j.metrics ≠ PyVal.vNumMap [] := hne
    exact absurd (h.2.1 hne2) hnsc
  · intro hst
    have hst2 : PyVal.vStatus JobStatus.cancelled = PyVal.vStatus JobStatus.failed := hst
    exact absurd hst2 (by simp)
  · intro hst
    have hst2 : PyVal.vStatus JobStatus.cancelled = PyVal.vStatus JobStatus.completed := hst
    exact absurd hst2 (by simp)

theorem jobInv_set_logs {j : Job} (h : JobInv j) (v : PyVal) :
    JobInv (j.setattr "logs" v) := h

theorem jobInv_set_wandb_url {j : Job} (h : JobInv j) (v : PyVal) :
    JobInv (j.setattr "wandb_run_url" v) := h

theorem jobInv_set_progress {j : Job} (h : JobInv j)
    (hns : ¬ j.status = PyVal.vStatus .completed) (v : PyVal) :
    JobInv (j.setattr "progress" v) := by
  refine ⟨?_, ?_, ?_, ?_⟩
  · intro hne
    exact h.1 hne
  · intro hne
    exact h.2.1 hne
  · intro hst
    exact h.2.2.1 hst
  · intro hst
    exact absurd hst hns

theorem storeInv_update_single {s : Sys} (hs : StoreInv s) {id name : String} {v : PyVal}
    (hj : ∀ (a : Addr) (j : Job), s.getJob id = some a → heapGet s a = some j →
      JobInv (j.setattr name v)) :
    StoreInv ((s.update id [(name, v)]).getD s) := by
  cases hg : s.getJob id with
  | none =>
    have hu : s.update id [(name, v)] = none := by simp [Sys.update, hg]
    rw [hu]
    exact hs
  | some a =>
    cases hh : heapGet s a with
    | none =>
      have hu : s.update id [(name, v)] = none := by simp [Sys.update, hg, hh]
      rw [hu]
      exact hs
    | some j =>
      have hu : s.update id [(name, v)] = some (heapSet s a (j.setattr name v)) := by
        simp [Sys.update, hg, hh]
      rw [hu]
      exact storeInv_heapSet hs (hj a j hg hh)

theorem storeInv_step {s : Sys} (hs : StoreInv s) (now : Nat) {e : Event}
    (ha : allowedB s e = true) : StoreInv (step now s e) := by
  cases e with
  | add id mt ds uid cfg =>
    show StoreInv (s.add id mt ds uid cfg now)
    intro p hp
    unfold Sys.add at hp
    simp only [List.mem_append, List.mem_singleton] at hp
    rcases hp with hp | hp
    · exact hs p hp
    · rw [hp]
      exact jobInv_init id mt ds cfg uid now
  | logsSet id l =>
    refine storeInv_update_single hs ?_
    intro a j _ hh
    exact jobInv_set_logs (hs _ (heapGet_mem hh)) _
  | wandbUrl id url =>
    refine storeInv_update_single hs ?_
    intro a j _ hh
    exact jobInv_set_wandb_url (hs _ (heapGet_mem hh)) _
  | progressSet id p =>
    have hnf : finishedB s id = false := by
      simp only [allowedB, decide_eq_true_eq] at ha
      exact Bool.eq_false_iff.mpr ha
    refine storeInv_update_single hs ?_
    intro a j hg hh
    exact jobInv_set_progress (hs _ (heapGet_mem hh)) (not_finished_status hg hh hnf).1 _
  | finishOk id m r =>
    have hnf : finishedB s id = false := by
      simp only [allowedB, decide_eq_true_eq] at ha
      exact Bool.eq_false_iff.mpr ha
    show StoreInv ((s.complete id m r now).getD s)
    cases hg : s.getJob id with
    | none =>
      have hc : s.complete id m r now = none := by simp [Sys.complete, hg]
      rw [hc]
      exact hs
    | some a =>
      cases hh : heapGet s a with
      | none =>
        have hc : s.complete id m r now = none := by simp [Sys.complete, hg, hh]
        rw [hc]
        exact hs
      | some j =>
        have hc : s.complete id m r now = some (heapSet s a (j.completeJob m r now)) := by
          simp [Sys.complete, hg, hh]
        rw [hc]
        exact storeInv_heapSet hs
          (jobInv_completeJob (hs _ (heapGet_mem hh)) (not_finished_status hg hh hnf).2 m r now)
  | finishErr id msg =>
    have hnf : finishedB s id = false := by
      simp only [allowedB, decide_eq_true_eq] at ha
      exact Bool.eq_false_iff.mpr ha
    show StoreInv ((s.fail id msg now).getD s)
    cases hg : s.getJob id with
    | none =>
      have hc : s.fail id msg now = none := by simp [Sys.fail, hg]
      rw [hc]
      exact hs
    | some a =>
      cases hh : heapGet s a with
      | none =>
        have hc : s.fail id msg now = none := by simp [Sys.fail, hg, hh]
        rw [hc]
        exact hs
      | some j =>
        have hc : s.fail id msg now = some (heapSet s a (j.failJob msg now)) := by
          simp [Sys.fail, hg, hh]
        rw [hc]
        exact storeInv_heapSet hs
          (jobInv_failJob (hs _ (heapGet_mem hh)) (not_finished_status hg hh hnf).1 msg now)
  | cancel id =>
    show StoreInv ((cancelRoute s id).1)
    cases hg : s.getJob id with
    | none =>
      have hc : cancelRoute s id = (s, CancelResult.notFound) := by
        simp [cancelRoute, hg]
      rw [hc]
      exact hs
    | some a =>
      cases hh : heapGet s a with
      | none =>
        have hc : cancelRoute s id = (s, CancelResult.notFound) := by
          simp [cancelRoute, hg, hh]
        rw [hc]
        exact hs
      | some j =>
        by_cases hp : j.status = PyVal.vStatus .pending ∨ j.status = PyVal.vStatus .running
        · have hc : cancelRoute s id
              = (heapSet s a { j with status := PyVal.vStatus .cancelled }, CancelResult.attrError) := by
            simp [cancelRoute, hg, hh, hp]
          rw [hc]
          exact storeInv_heapSet hs (jobInv_cancelled (hs _ (heapGet_mem hh)) hp)
        · have hc : cancelRoute s id = (s, CancelResult.invalidState) := by
            simp [cancelRoute, hg, hh, hp]
          rw [hc]
          exact hs

theorem storeInv_runTrace {s : Sys} (hs : StoreInv s) {tr : List (Nat × Event)}
    (ho : okTrace s tr = true) : StoreInv (runTrace s tr) := by
  induction tr generalizing s with
  | nil => exact hs
  | cons te rest ih =>
    obtain ⟨t, e⟩ := te
    unfold okTrace at ho
    rw [Bool.and_eq_true] at ho
    exact ih (storeInv_step hs t ho.1) ho.2

/-! The claims. -/

/-- C1, counterexample.  The claim says a worker finishing its run on a job
whose status is already Cancelled does not overwrite that status.  On the
code, running a job that was admitted, cancelled through the route, and then
finalized by its worker (an allowed trace of the system) ends with status
Completed: the Cancelled status is overwritten, because Job.complete assigns
status unconditionally and _run_job performs no cancellation check. -/
theorem C1_cancelled_overwritten_cex :
    okTrace emptySys
      [ (0, Event.add "j1" "linear_regression" "user/demo" none [])
      , (1, Event.cancel "j1")
      , (2, Event.finishOk "j1" [("mse", 2)] none) ] = true
    ∧ cancelledSample.statusOf "j1" = some (PyVal.vStatus .cancelled)
    ∧ (runTrace emptySys
        [ (0, Event.add "j1" "linear_regression" "user/demo" none [])
        , (1, Event.cancel "j1")
        , (2, Event.finishOk "j1" [("mse", 2)] none) ]).statusOf "j1"
      = some (PyVal.vStatus .completed) :=
  ⟨rfl, rfl, rfl⟩

/-- C1, amended.  Terminal states are not immutable: JobStore.complete and
JobStore.fail assign status, completed_at and the result fields
unconditionally, so a worker finishing its run on a job whose status is
already Cancelled overwrites that status with Completed (on success) or
Failed (on error). -/
theorem C1_finalize_overwrites_cancelled (s : Sys) (id : String)
    (m : List (String × Int)) (r : Option String) (e : String) (now : Nat)
    (h : s.statusOf id = some (PyVal.vStatus .cancelled)) :
    ((s.complete id m r now).getD s).statusOf id = some (PyVal.vStatus .completed)
    ∧ ((s.fail id e now).getD s).statusOf id = some (PyVal.vStatus .failed) := by
  unfold Sys.statusOf at h ⊢
  cases hr : s.jobRecord id with
  | none => rw [hr] at h; simp at h
  | some j =>
    constructor
    · rw [record_after_complete m r now hr]
      rfl
    · rw [record_after_fail e now hr]
      rfl

/-- Witness for C1: the amended theorem applied to the concrete store whose
job j1 is Cancelled. -/
theorem C1_finalize_overwrites_cancelled_w :
    cancelledSample.statusOf "j1" = some (PyVal.vStatus .cancelled)
    ∧ ((cancelledSample.complete "j1" [("mse", 2)] none 2).getD cancelledSample).statusOf "j1"
      = some (PyVal.vStatus .completed) :=
  ⟨rfl, (C1_finalize_overwrites_cancelled cancelledSample "j1" [("mse", 2)] none "boom" 2 rfl).1⟩

/-- C2, counterexample.  The claim says every terminal job has exactly one
of non-empty metrics / non-null error, and progress 100 exactly on
Completed.  On the code, an allowed trace produces: j1 Cancelled with null
error AND empty metrics (neither side populated); j2 Cancelled with
progress 100 (progress 100 without Completed); j3 Completed with empty
metrics (metrics need not be non-empty). -/
theorem C2_terminal_exactly_one_cex :
    okTrace emptySys c2Trace = true
    ∧ c2Sample.statusOf "j1" = some (PyVal.vStatus .cancelled)
    ∧ c2Sample.errorOf "j1" = some PyVal.vNone
    ∧ c2Sample.metricsOf "j1" = some (PyVal.vNumMap [])
    ∧ c2Sample.statusOf "j2" = some (PyVal.vStatus .cancelled)
    ∧ c2Sample.progressOf "j2" = some (PyVal.vInt 100)
    ∧ c2Sample.statusOf "j3" = some (PyVal.vStatus .completed)
    ∧ c2Sample.metricsOf "j3" = some (PyVal.vNumMap []) :=
  ⟨rfl, rfl, rfl, rfl, rfl, rfl, rfl, rfl⟩

/-- C2, amended.  Over every allowed trace of the system: a Completed job
has progress 100 and null error; a Failed job has a non-null error and an
empty metrics dict; a Cancelled job has null error and empty metrics, i.e.
neither result field populated.  (Non-empty metrics therefore occur only on
Completed jobs, but a Completed job's metrics dict is whatever the strategy
returned and can be empty, and progress 100 does not imply Completed.) -/
theorem C2_terminal_fields (tr : List (Nat × Event)) (h : okTrace emptySys tr = true)
    (id : String) (j : Job) (hr : (runTrace emptySys tr).jobRecord id = some j) :
    (j.status = PyVal.vStatus .completed → j.progress = PyVal.vInt 100 ∧ j.error = PyVal.vNone)
    ∧ (j.status = PyVal.vStatus .failed → j.error ≠ PyVal.vNone ∧ j.metrics = PyVal.vNumMap [])
    ∧ (j.status = PyVal.vStatus .cancelled → j.error = PyVal.vNone ∧ j.metrics = PyVal.vNumMap []) := by
  have hsi : StoreInv (runTrace emptySys tr) := by
    refine storeInv_runTrace ?_ h
    intro p hp
    simp [emptySys] at hp
  obtain ⟨a, ha⟩ := jobRecord_mem hr
  obtain ⟨h1, h2, h3, h4⟩ := hsi _ ha
  refine ⟨?_, ?_, ?_⟩
  · intro hst
    refine ⟨h4 hst, ?_⟩
    by_contra hc
    have hf := (h1 hc).1
    rw [hst] at hf
    simp at hf
  · intro hst
    refine ⟨h3 hst, ?_⟩
    by_contra hc
    have hf := h2 hc
    rw [hst] at hf
    simp at hf
  · intro hst
    constructor
    · by_contra hc
      have hf := (h1 hc).1
      rw [hst] at hf
      simp at hf
    · by_contra hc
      have hf := h2 hc
      rw [hst] at hf
      simp at hf

/-- Witness for C2: the amended theorem applied to the concrete trace
c2Trace and its completed job j3. -/
theorem C2_terminal_fields_w :
    ((Job.init "j3" "random_forest" "user/demo" [] none 5).completeJob [] none 6).progress
      = PyVal.vInt 100
    ∧ ((Job.init "j3" "random_forest" "user/demo" [] none 5).completeJob [] none 6).error
      = PyVal.vNone :=
  (C2_terminal_fields c2Trace rfl "j3"
    ((Job.init "j3" "random_forest" "user/demo" [] none 5).completeJob [] none 6) rfl).1 rfl

/-- C3, confirmed.  For a job present in the store, one execution of
_run_job ends in a terminal state on every path: when the body raises with
message e at any step, the job is Failed with exactly that text in its
error field; when the body returns, the job is Completed; in no case is the
job left Running; and on both paths the per-job scratch directory and
everything below it are gone from the filesystem afterwards. -/
theorem C3_run_reaches_terminal (s : Sys) (fs : List FsPath) (id : String)
    (body : Except String (List (String × Int) × Option String)) (now : Nat) (j : Job)
    (h : s.jobRecord id = some j) :
    (∀ e, body = .error e →
      (runJob s fs id body now).sys.statusOf id = some (PyVal.vStatus .failed)
      ∧ (runJob s fs id body now).sys.errorOf id = some (PyVal.vStr e))
    ∧ (∀ m r, body = .ok (m, r) →
      (runJob s fs id body now).sys.statusOf id = some (PyVal.vStatus .completed))
    ∧ ¬ (runJob s fs id body now).sys.statusOf id = some (PyVal.vStatus .running)
    ∧ artefactDir id ∉ (runJob s fs id body now).fs
    ∧ ∀ p ∈ (runJob s fs id body now).fs, ¬ artefactDir id <+: p := by
  cases body with
  | error e0 =>
    refine ⟨?_, ?_, ?_, ?_, ?_⟩
    · intro e he
      cases he
      constructor
      · show ((s.fail id e0 now).getD s).statusOf id = _
        unfold Sys.statusOf
        rw [record_after_fail e0 now h]
        rfl
      · show ((s.fail id e0 now).getD s).errorOf id = _
        unfold Sys.errorOf
        rw [record_after_fail e0 now h]
        rfl
    · intro m r hmr
      cases hmr
    · show ¬ ((s.fail id e0 now).getD s).statusOf id = _
      unfold Sys.statusOf
      rw [record_after_fail e0 now h]
      intro hc
      simp [Job.failJob, Job.addLog] at hc
    · exact self_not_mem_rmtree _ _
    · intro p hp
      exact mem_rmtree_not_under hp
  | ok mr =>
    obtain ⟨m0, r0⟩ := mr
    refine ⟨?_, ?_, ?_, ?_, ?_⟩
    · intro e he
      cases he
    · intro m r hmr
      cases hmr
      show ((s.complete id m0 r0 now).getD s).statusOf id = _
      unfold Sys.statusOf
      rw [record_after_complete m0 r0 now h]
      rfl
    · show ¬ ((s.complete id m0 r0 now).getD s).statusOf id = _
      unfold Sys.statusOf
      rw [record_after_complete m0 r0 now h]
      intro hc
      simp [Job.completeJob, Job.addLog] at hc
    · exact self_not_mem_rmtree _ _
    · intro p hp
      exact mem_rmtree_not_under hp

/-- Witness for C3: a run whose body raises "boom" on the store holding the
pending job j1. -/
theorem C3_run_reaches_terminal_w :
    (runJob pendingSample [] "j1" (.error "boom") 1).sys.statusOf "j1"
      = some (PyVal.vStatus .failed)
    ∧ (runJob pendingSample [] "j1" (.error "boom") 1).sys.errorOf "j1"
      = some (PyVal.vStr "boom") :=
  (C3_run_reaches_terminal pendingSample [] "j1" (.error "boom") 1
    (Job.init "j1" "linear_regression" "user/demo" [] none 0) rfl).1 "boom" rfl

/-- C4, counterexample.  The claim says reads return independent value
copies.  On the code, get_job returns the stored object itself: after
admitting j1, get_job yields reference 0, and assigning progress 55 through
that reference changes the value the store itself reports for j1 from 0 to
55 — the read was an alias, not a copy. -/
theorem C4_reads_alias_cex :
    pendingSample.getJob "j1" = some 0
    ∧ heapGet pendingSample 0 = some (Job.init "j1" "linear_regression" "user/demo" [] none 0)
    ∧ pendingSample.progressOf "j1" = some (PyVal.vInt 0)
    ∧ c4Mutated.progressOf "j1" = some (PyVal.vInt 55) :=
  ⟨rfl, rfl, rfl, rfl⟩

/-- C4, amended.  get_job and list_jobs return references to the canonical
Job objects, not copies: a setattr through the reference get_job returned
becomes the store's own record for that id, and every element list_jobs
returns is one of the store's registered references. -/
theorem C4_reads_return_references (s : Sys) (id : String) (a : Addr) (j : Job)
    (n : String) (v : PyVal) (h1 : s.getJob id = some a) (h2 : heapGet s a = some j) :
    (heapSet s a (j.setattr n v)).jobRecord id = some (j.setattr n v)
    ∧ ∀ b ∈ s.listJobs none none, ∃ id2, (id2, b) ∈ s.jobs := by
  constructor
  · unfold Sys.jobRecord
    rw [getJob_heapSet, h1]
    exact heapGet_heapSet_self _ h2
  · intro b hb
    unfold Sys.listJobs at hb
    simp only [List.mem_map] at hb
    obtain ⟨p, hp, rfl⟩ := hb
    rw [mem_sortDesc] at hp
    simp only [List.mem_filterMap] at hp
    obtain ⟨kv, hkv, hf⟩ := hp
    cases hg : heapGet s kv.2 with
    | none => rw [hg] at hf; simp at hf
    | some j2 =>
      rw [hg] at hf
      simp only [Option.map_some'] at hf
      have hpe : (kv.2, j2) = p := Option.some.inj hf
      refine ⟨kv.1, ?_⟩
      rw [← hpe]
      exact hkv

/-- Witness for C4: the amended theorem applied to pendingSample and the
progress mutation of c4Mutated. -/
theorem C4_reads_return_references_w :
    c4Mutated.jobRecord "j1"
      = some ((Job.init "j1" "linear_regression" "user/demo" [] none 0).setattr "progress"
          (PyVal.vInt 55)) :=
  (C4_reads_return_references pendingSample "j1" 0
    (Job.init "j1" "linear_regression" "user/demo" [] none 0) "progress" (PyVal.vInt 55)
    rfl rfl).1

/-- C5, evidence for the code bug.  Cancelling the Pending job j1 does flip
its status to Cancelled, but the handler then calls job_store.update_job —
a method JobStore does not define — so the request ends in AttributeError
(HTTP 500), never in the ok response the claim describes.  Cancelling an
already Completed job returns InvalidState and leaves the store untouched,
and an unknown id returns NotFound, as the claim says. -/
theorem C5_cancel_route_behavior :
    (cancelRoute pendingSample "j1").2 = CancelResult.attrError
    ∧ (cancelRoute pendingSample "j1").1.statusOf "j1" = some (PyVal.vStatus .cancelled)
    ∧ (cancelRoute completedSample "j1").2 = CancelResult.invalidState
    ∧ (cancelRoute completedSample "j1").1 = completedSample
    ∧ (cancelRoute pendingSample "missing").2 = CancelResult.notFound
    ∧ (cancelRoute pendingSample "missing").1 = pendingSample :=
  ⟨rfl, rfl, rfl, rfl, rfl, rfl⟩

/-- C6, counterexample.  The claim says a submit whose model_type is not
registered fails with UnknownModelType.  start_job probes the dataset
first, so when that probe fails the call reports DatasetUnavailable even
though the model type is also unregistered; no record is created either
way. -/
theorem C6_dataset_probe_first_cex :
    (start_job emptySys (fun _ => false) ["linear_regression"] none "nonexistent"
      "user/demo" [] "fresh-id" 0).2
      = Except.error (StartErr.datasetUnavailable "Dataset user/demo not found or inaccessible.")
    ∧ (start_job emptySys (fun _ => false) ["linear_regression"] none "nonexistent"
        "user/demo" [] "fresh-id" 0).1 = emptySys :=
  ⟨rfl, rfl⟩

/-- C6, amended.  For every submit whose model_type is not registered, the
call fails synchronously with no Job Record created — the store is returned
entirely unchanged, so its contents and count are unaffected — and the
error is UnknownModelType provided the dataset probe (which runs first)
succeeds; when the probe fails, DatasetUnavailable is reported instead. -/
theorem C6_unknown_model_no_record (s : Sys) (datasetOk : String → Bool)
    (registered : List String) (uid : Option String) (mt ds : String)
    (cfg : List (String × String)) (fresh : String) (now : Nat)
    (h : registered.contains mt = false) :
    (start_job s datasetOk registered uid mt ds cfg fresh now).1 = s
    ∧ (∀ idr, ¬ (start_job s datasetOk registered uid mt ds cfg fresh now).2 = Except.ok idr)
    ∧ (datasetOk ds = true →
        (start_job s datasetOk registered uid mt ds cfg fresh now).2
          = Except.error (StartErr.unknownModelType ("Model " ++ mt ++ " not registered."))) := by
  have hm : mt ∉ registered := by simpa using h
  cases hdv : datasetOk ds with
  | false => refine ⟨?_, ?_, ?_⟩ <;> simp [start_job, hdv, hm]
  | true => refine ⟨?_, ?_, ?_⟩ <;> simp [start_job, hdv, hm]

/-- Witness for C6: an unregistered model type with a reachable dataset. -/
theorem C6_unknown_model_no_record_w :
    (start_job emptySys (fun _ => true) ["linear_regression"] none "nonexistent"
      "user/demo" [] "fresh-id" 0).2
      = Except.error (StartErr.unknownModelType "Model nonexistent not registered.") :=
  (C6_unknown_model_no_record emptySys (fun _ => true) ["linear_regression"] none
    "nonexistent" "user/demo" [] "fresh-id" 0 rfl).2.2 rfl

/-- C7, counterexample.  The claim says stats returns a count for each of
the five statuses including cancelled.  On the code, a store holding one
Cancelled job reports total 1 but get_stats has no cancelled key at all. -/
theorem C7_stats_no_cancelled_cex :
    cancelledSample.statusOf "j1" = some (PyVal.vStatus .cancelled)
    ∧ alLookup cancelledSample.getStats "cancelled" = none
    ∧ alLookup cancelledSample.getStats "total" = some 1 :=
  ⟨rfl, rfl, rfl⟩

/-- C7, amended.  For every store state, get_stats returns a total equal to
the number of entries in the store dictionary and per-status counts for
pending, running, completed and failed only; there is no cancelled key, so
cancelled jobs are visible only through the total. -/
theorem C7_stats_fields (s : Sys) :
    alLookup s.getStats "total" = some s.jobs.length
    ∧ alLookup s.getStats "pending"
      = some ((s.storeJobs.filter (fun j => decide (j.status = PyVal.vStatus .pending))).length)
    ∧ alLookup s.getStats "running"
      = some ((s.storeJobs.filter (fun j => decide (j.status = PyVal.vStatus .running))).length)
    ∧ alLookup s.getStats "completed"
      = some ((s.storeJobs.filter (fun j => decide (j.status = PyVal.vStatus .completed))).length)
    ∧ alLookup s.getStats "failed"
      = some ((s.storeJobs.filter (fun j => decide (j.status = PyVal.vStatus .failed))).length)
    ∧ alLookup s.getStats "cancelled" = none :=
  ⟨rfl, rfl, rfl, rfl, rfl, rfl⟩

/-- C8, confirmed.  push_model makes at most 3 upload attempts; each failed
attempt is followed by a sleep of 2^attempt seconds (2, then 4, then 8 — an
exponential backoff); success on attempt k stops with the repo url after
the sleeps of the k-1 earlier failures; and when all three attempts fail it
gives up with the generic RuntimeError text instead of retrying further. -/
theorem C8_push_model_retries (ok : Nat → Bool) (rid : String) :
    (push_model ok rid).attempts ≤ 3
    ∧ (ok 1 = true →
        push_model ok rid = ⟨1, [], .ok ("https://huggingface.co/" ++ rid)⟩)
    ∧ (ok 1 = false → ok 2 = true →
        push_model ok rid = ⟨2, [2], .ok ("https://huggingface.co/" ++ rid)⟩)
    ∧ (ok 1 = false → ok 2 = false → ok 3 = true →
        push_model ok rid = ⟨3, [2, 4], .ok ("https://huggingface.co/" ++ rid)⟩)
    ∧ (ok 1 = false → ok 2 = false → ok 3 = false →
        push_model ok rid = ⟨3, [2, 4, 8],
          .error "Failed to push model to Hugging Face after 3 retries."⟩) := by
  cases h1 : ok 1 <;> cases h2 : ok 2 <;> cases h3 : ok 3 <;>
    simp [push_model, pushLoop, h1, h2, h3]

/-- Witness for C8: all three attempts fail. -/
theorem C8_push_model_retries_w :
    push_model (fun _ => false) "GeneAlpha/demo"
      = ⟨3, [2, 4, 8], .error "Failed to push model to Hugging Face after 3 retries."⟩ :=
  (C8_push_model_retries (fun _ => false) "GeneAlpha/demo").2.2.2.2 rfl rfl rfl

/-- C9, counterexample.  The claim says the artifact is persisted under
model_type/job_id/model.ext and still exists after the scratch release.  On
the code, a successful run of job j1 (model type lightgbm) saves the model
to storage/artifacts/j1/model.joblib — a path keyed by job_id only — and
the finally block then removes the whole scratch directory, leaving no file
at all: the filesystem afterwards is empty. -/
theorem C9_artifact_deleted_cex :
    runSample.savedPath = some ["storage", "artifacts", "j1", "model.joblib"]
    ∧ runSample.sys.statusOf "j1" = some (PyVal.vStatus .completed)
    ∧ runSample.fs = [] :=
  ⟨rfl, rfl, rfl⟩

/-- C9, amended.  On every successful run the model is written to
storage/artifacts/job_id/model.joblib (the path contains the job id but not
the model type), and the unconditional scratch release of the finally block
removes that directory, so neither the saved file nor the directory exists
once the run finishes. -/
theorem C9_saved_under_scratch (s : Sys) (fs : List FsPath) (id : String)
    (m : List (String × Int)) (repo : Option String) (now : Nat) :
    (runJob s fs id (.ok (m, repo)) now).savedPath
      = some (artefactDir id ++ ["model.joblib"])
    ∧ (artefactDir id ++ ["model.joblib"]) ∉ (runJob s fs id (.ok (m, repo)) now).fs
    ∧ artefactDir id ∉ (runJob s fs id (.ok (m, repo)) now).fs :=
  ⟨rfl, extended_not_mem_rmtree _ _ _, self_not_mem_rmtree _ _⟩

/-- C10, confirmed.  For an existing job id, JobStore.update succeeds and
setattrs every supplied name on the stored object in order, with no
validation whatsoever: the stored record becomes exactly the left fold of
setattr over the field list, and setattr followed by getattr of the same
name yields the assigned value for every name — including names that are
not Job attributes (which are created on the spot) and protected names such
as status, job_id, metrics or error, regardless of the job's state. -/
theorem C10_update_no_validation (s : Sys) (id : String) (a : Addr) (j : Job)
    (fields : List (String × PyVal)) (h1 : s.getJob id = some a) (h2 : heapGet s a = some j) :
    s.update id fields
      = some (heapSet s a (fields.foldl (fun jb kv => jb.setattr kv.1 kv.2) j))
    ∧ (heapSet s a (fields.foldl (fun jb kv => jb.setattr kv.1 kv.2) j)).jobRecord id
      = some (fields.foldl (fun jb kv => jb.setattr kv.1 kv.2) j)
    ∧ (∀ (jb : Job) (n : String) (v : PyVal), (jb.setattr n v).getattr n = some v) := by
  refine ⟨by simp [Sys.update, h1, h2], ?_, ?_⟩
  · unfold Sys.jobRecord
    rw [getJob_heapSet, h1]
    exact heapGet_heapSet_self _ h2
  · intro jb n v
    by_cases h1 : n = "job_id"
    · subst h1; rfl
    by_cases h2 : n = "user_id"
    · subst h2; rfl
    by_cases h3 : n = "model_type"
    · subst h3; rfl
    by_cases h4 : n = "dataset"
    · subst h4; rfl
    by_cases h5 : n = "config"
    · subst h5; rfl
    by_cases h6 : n = "status"
    · subst h6; rfl
    by_cases h7 : n = "created_at"
    · subst h7; rfl
    by_cases h8 : n = "started_at"
    · subst h8; rfl
    by_cases h9 : n = "completed_at"
    · subst h9; rfl
    by_cases h10 : n = "error"
    · subst h10; rfl
    by_cases h11 : n = "metrics"
    · subst h11; rfl
    by_cases h12 : n = "wandb_run_id"
    · subst h12; rfl
    by_cases h13 : n = "wandb_run_url"
    · subst h13; rfl
    by_cases h14 : n = "model_path"
    · subst h14; rfl
    by_cases h15 : n = "huggingface_model_id"
    · subst h15; rfl
    by_cases h16 : n = "progress"
    · subst h16; rfl
    by_cases h17 : n = "logs"
    · subst h17; rfl
    simp only [Job.setattr, Job.getattr, if_neg h1, if_neg h2, if_neg h3, if_neg h4,
      if_neg h5, if_neg h6, if_neg h7, if_neg h8, if_neg h9, if_neg h10, if_neg h11,
      if_neg h12, if_neg h13, if_neg h14, if_neg h15, if_neg h16, if_neg h17]
    exact alLookup_alInsert_self jb.extra n v

/-- Witness for C10: updating the pending job j1 with a direct status
overwrite and a brand-new attribute name. -/
theorem C10_update_no_validation_w :
    Sys.update pendingSample "j1" [("status", PyVal.vStr "bogus"), ("frobnicate", PyVal.vInt 7)]
      = some (heapSet pendingSample 0
          ([("status", PyVal.vStr "bogus"), ("frobnicate", PyVal.vInt 7)].foldl
            (fun jb kv => jb.setattr kv.1 kv.2)
            (Job.init "j1" "linear_regression" "user/demo" [] none 0)))
    ∧ ((Job.init "j1" "linear_regression" "user/demo" [] none 0).setattr "frobnicate"
        (PyVal.vInt 7)).getattr "frobnicate" = some (PyVal.vInt 7) :=
  ⟨(C10_update_no_validation pendingSample "j1" 0
      (Job.init "j1" "linear_regression" "user/demo" [] none 0)
      [("status", PyVal.vStr "bogus"), ("frobnicate", PyVal.vInt 7)] rfl rfl).1,
   (C10_update_no_validation pendingSample "j1" 0
      (Job.init "j1" "linear_regression" "user/demo" [] none 0)
      [("status", PyVal.vStr "bogus"), ("frobnicate", PyVal.vInt 7)] rfl rfl).2.2 _ "frobnicate" _⟩

end GA
